import Mathlib

/-!
Shallow embedding of `app/scripts/controllers/detect-tokens.js`
(the `DetectTokensController` of the metamask-extension repository).

The controller's observable behaviour is modelled as pure functions:
mirrored controller state is an explicit structure, external collaborators
(token catalog, balance oracle, network store) are an environment record,
and each run of the pipeline returns the ordered list of externally
observable effects together with a flag recording whether the run ended in
an uncaught exception.
-/

namespace DetectTokens

/-- Modelled from the spec: `isEqualCaseInsensitive` from
`shared/modules/string-utils` is not under `src/`; the spec says address
comparison throughout is case-insensitive, i.e. equality after
lower-casing (expressed character-wise over the strings' data, which is
the same comparison). -/
def isEqualCaseInsensitive (value1 value2 : String) : Bool :=
  value1.data.map Char.toLower == value2.data.map Char.toLower

/-- Modelled from the spec: `MINUTE` from `shared/constants/time` is not
under `src/`; one minute in milliseconds. -/
def MINUTE : Nat := 60000

/-- `const DEFAULT_INTERVAL = MINUTE * 3` — poll every 3 minutes. -/
def DEFAULT_INTERVAL : Nat := MINUTE * 3

/-- Modelled from the spec: `TOKEN_STANDARDS.ERC20` — the fixed
token-standard label attached to every discovery event (constants module
not under `src/`). -/
def TOKEN_STANDARDS_ERC20 : String := "ERC20"

/-- Modelled from the spec: `ASSET_TYPES.TOKEN` — the fixed asset-type
label attached to every discovery event (constants module not under
`src/`). -/
def ASSET_TYPES_TOKEN : String := "TOKEN"

/-- Modelled from the spec: `EVENT_NAMES.TOKEN_DETECTED` — the fixed
telemetry event name (constants module not under `src/`). -/
def EVENT_NAMES_TOKEN_DETECTED : String := "Token Detected"

/-- Modelled from the spec: `EVENT.CATEGORIES.WALLET` — the fixed
telemetry category (constants module not under `src/`). -/
def EVENT_CATEGORIES_WALLET : String := "Wallet"

/-- A catalog entry: the descriptor stored in the token list under an
address key (`{ address, symbol, decimals, iconUrl, aggregators }`). -/
structure TokenDescriptor where
  address : String
  symbol : String
  decimals : Nat
  iconUrl : String
  aggregators : List String
deriving DecidableEq, Repr

/-- The record pushed onto `tokensWithBalance`
(`{ address, symbol, decimals, image: iconUrl, aggregators }`). -/
structure DetectedTokenRecord where
  address : String
  symbol : String
  decimals : Nat
  image : String
  aggregators : List String
deriving DecidableEq, Repr

/-- Outcome of one `getBalancesInSingleCall` invocation:
`throw` models the promise rejecting (caught by the `try` block),
`falsy` models a falsy `result` (the `if (result)` guard skips the batch),
`keys ks` models a successful object result with `Object.keys(result) = ks`. -/
inductive OracleOutcome where
  | throw
  | falsy
  | keys (ks : List String)
deriving DecidableEq, Repr

/-- Externally observable effects of one pipeline run, in program order. -/
inductive Effect where
  | readTokenList
  | oracleCall (account : Option String) (tokens : List String)
  | warnFetchFailed
  | trackTokenDetected (event : String) (category : String)
      (tokens : List String) (token_standard : String) (asset_type : String)
  | addDetectedTokens (tokens : List DetectedTokenRecord)
deriving DecidableEq, Repr

/-- The controller's own mutable fields. `none` models a JavaScript
`undefined` mirror (e.g. a collaborator was absent at construction).
`handle` models `this._handle`: `some i` means the repeating timer is
armed with interval `i`, `none` means no timer is armed. -/
structure DetectTokensState where
  selectedAddress : Option String
  useTokenDetection : Option Bool
  tokenAddresses : Option (List String)
  hiddenTokens : Option (List String)
  detectedTokens : Option (List TokenDescriptor)
  isOpen : Option Bool
  isUnlocked : Option Bool
  handle : Option Nat
deriving DecidableEq, Repr

/-- External live state read during a run: the network store's chain id,
the token list controller's catalog (an ordered address-to-descriptor
mapping, modelling JavaScript object key iteration order), the balance
oracle, and the network-support predicate.
`isTokenDetectionEnabledForNetwork` (from `shared/modules/network.utils`,
not under `src/`) is kept abstract as an environment field. -/
structure Env where
  isTokenDetectionEnabledForNetwork : String → Bool
  chainId : String
  tokenList : List (String × TokenDescriptor)
  getBalancesInSingleCall : Option String → List String → OracleOutcome

/-- JavaScript truthiness of an optional boolean
(`undefined` and `false` are falsy). -/
def truthy : Option Bool → Bool
  | some b => b
  | none => false

/-- JavaScript truthiness of an optional string
(`undefined` and the empty string are falsy). -/
def truthyString : Option String → Bool
  | some s => !(s == "")
  | none => false

/-- `get isActive() { return this.isOpen && this.isUnlocked; }`. -/
def DetectTokensState.isActive (st : DetectTokensState) : Bool :=
  truthy st.isOpen && truthy st.isUnlocked

/-- Truthiness of `list.find((address) => isEqualCaseInsensitive(address,
k))`: `find` returns the matching element itself, so a matching empty
string is falsy. -/
def truthyFindString (l : List String) (k : String) : Bool :=
  match l.find? (fun a => isEqualCaseInsensitive a k) with
  | none => false
  | some a => !(a == "")

/-- The candidate-selection loop of `detectNewTokens` (lines 96–112):
for each catalog key, push it unless a truthy match is found in the
`tokenAddresses`, `hiddenTokens` or `detectedTokens` mirrors (in that
short-circuit order). An `undefined` mirror (`none`) makes the `.find`
call throw, modelled by returning `none`. -/
def tokensToDetectLoop (ta hid : Option (List String))
    (det : Option (List TokenDescriptor)) : List String → Option (List String)
  | [] => some []
  | k :: ks =>
    match ta with
    | none => none
    | some tas =>
      if truthyFindString tas k then tokensToDetectLoop ta hid det ks
      else
        match hid with
        | none => none
        | some hids =>
          if truthyFindString hids k then tokensToDetectLoop ta hid det ks
          else
            match det with
            | none => none
            | some dets =>
              if (dets.find? (fun t => isEqualCaseInsensitive t.address k)).isSome then
                tokensToDetectLoop ta hid det ks
              else Option.map (fun l => k :: l) (tokensToDetectLoop ta hid det ks)

/-- The candidate list (`tokensToDetect`) computed from the catalog and
the three known-set mirrors. -/
def tokensToDetect (tokenList : List (String × TokenDescriptor))
    (ta hid : Option (List String)) (det : Option (List TokenDescriptor)) :
    Option (List String) :=
  tokensToDetectLoop ta hid det (tokenList.map Prod.fst)

/-- `const sliceOfTokensToDetect = [tokensToDetect.slice(0, 1000),
tokensToDetect.slice(1000, tokensToDetect.length - 1)]` (lines 113–116).
JavaScript `slice(1000, end)` takes the elements at indices
`1000 ≤ i < end`; for `end = length - 1` this is
`(l.drop 1000).take (l.length - 1 - 1000)` (the clamping of a negative
`end` for the empty list coincides with truncated `Nat` subtraction). -/
def sliceOfTokensToDetect (l : List String) : List (List String) :=
  [l.take 1000, (l.drop 1000).take (l.length - 1 - 1000)]

/-- JavaScript object property lookup `tokenList[key]` (exact key). -/
def lookupToken (tokenList : List (String × TokenDescriptor)) (k : String) :
    Option TokenDescriptor :=
  (tokenList.find? (fun p => p.1 == k)).map Prod.snd

/-- The reconciliation loop over `Object.keys(result)` (lines 134–150):
builds `eventTokensDetails` and `tokensWithBalance` in parallel; a key
absent from the token list makes the destructuring of
`tokenList[nonZeroTokenAddress]` throw, modelled by `none`. -/
def buildDiscoveries (tokenList : List (String × TokenDescriptor)) :
    List String → Option (List String × List DetectedTokenRecord)
  | [] => some ([], [])
  | k :: ks =>
    match lookupToken tokenList k, buildDiscoveries tokenList ks with
    | some d, some (details, recs) =>
        some ((d.symbol ++ " - " ++ d.address) :: details,
          { address := d.address, symbol := d.symbol, decimals := d.decimals,
            image := d.iconUrl, aggregators := d.aggregators } :: recs)
    | _, _ => none

/-- Effects of reconciling one successful batch result with key set `ks`
(lines 132–163): one telemetry event and one store write when the
discovery list is non-empty, nothing when it is empty; `none` when the
catalog lookup of some key throws. -/
def batchResultEffects (tokenList : List (String × TokenDescriptor))
    (ks : List String) : Option (List Effect) :=
  match buildDiscoveries tokenList ks with
  | none => none
  | some (details, recs) =>
    if recs.length > 0 then
      some [Effect.trackTokenDetected EVENT_NAMES_TOKEN_DETECTED
              EVENT_CATEGORIES_WALLET details TOKEN_STANDARDS_ERC20
              ASSET_TYPES_TOKEN,
            Effect.addDetectedTokens recs]
    else some []

/-- The sequential batch loop (lines 117–165): issue one oracle call per
slice; on a throw, warn and return; otherwise reconcile and continue.
The boolean is `true` when the run ended in an uncaught exception. -/
def runBatches (env : Env) (account : Option String) :
    List (List String) → List Effect × Bool
  | [] => ([], false)
  | slice :: rest =>
    match env.getBalancesInSingleCall account slice with
    | OracleOutcome.throw =>
        ([Effect.oracleCall account slice, Effect.warnFetchFailed], false)
    | OracleOutcome.falsy =>
        let r := runBatches env account rest
        (Effect.oracleCall account slice :: r.1, r.2)
    | OracleOutcome.keys ks =>
        match batchResultEffects env.tokenList ks with
        | none => ([Effect.oracleCall account slice], true)
        | some es =>
            let r := runBatches env account rest
            (Effect.oracleCall account slice :: (es ++ r.1), r.2)

/-- `async detectNewTokens()` (lines 81–166): gate on `isActive`, then on
`useTokenDetection` and `isTokenDetectionEnabledForNetwork(chainId)`,
read the token list, resolve candidates, and run the two batch slices. -/
def detectNewTokens (env : Env) (st : DetectTokensState) :
    List Effect × Bool :=
  if !st.isActive then ([], false)
  else if !truthy st.useTokenDetection
      || !env.isTokenDetectionEnabledForNetwork env.chainId then ([], false)
  else
    match tokensToDetect env.tokenList st.tokenAddresses st.hiddenTokens
        st.detectedTokens with
    | none => ([Effect.readTokenList], true)
    | some cands =>
        let r := runBatches env st.selectedAddress (sliceOfTokensToDetect cands)
        (Effect.readTokenList :: r.1, r.2)

/-- `set interval(interval)` (lines 185–193): clear any armed timer; if
the new interval is falsy, stay unarmed, otherwise arm with it. -/
def setIntervalSetter (interval : Nat) : Option Nat :=
  if interval = 0 then none else some interval

/-- `restartTokenDetection()` (lines 173–179): a no-op unless `isActive`
and `this.selectedAddress` are both truthy; otherwise run
`detectNewTokens` once and re-assign `this.interval = DEFAULT_INTERVAL`
(re-arming the timer with the default interval). -/
def restartTokenDetection (env : Env) (st : DetectTokensState) :
    DetectTokensState × (List Effect × Bool) :=
  if st.isActive && truthyString st.selectedAddress then
    ({ st with handle := setIntervalSetter DEFAULT_INTERVAL },
     detectNewTokens env st)
  else (st, ([], false))

/-- The `preferences.store.subscribe` callback (lines 57–66): when the
delivered `(selectedAddress, useTokenDetection)` pair differs from the
mirrored pair (strict inequality), overwrite both mirrors and call
`restartTokenDetection`. -/
def preferencesListener (env : Env) (st : DetectTokensState)
    (selectedAddress : Option String) (useTokenDetection : Option Bool) :
    DetectTokensState × (List Effect × Bool) :=
  if st.selectedAddress ≠ selectedAddress
      ∨ st.useTokenDetection ≠ useTokenDetection then
    restartTokenDetection env
      { st with selectedAddress := selectedAddress,
                useTokenDetection := useTokenDetection }
  else (st, ([], false))

/-- The `tokensController.subscribe` callback (lines 67–75): overwrite the
three known-set mirrors wholesale. -/
def tokensControllerListener (st : DetectTokensState)
    (tokens : List TokenDescriptor) (ignoredTokens : List String)
    (detectedTokens : List TokenDescriptor) : DetectTokensState :=
  { st with tokenAddresses := some (tokens.map TokenDescriptor.address),
            hiddenTokens := some ignoredTokens,
            detectedTokens := some detectedTokens }

/-- The preference store state visible through
`preferences.store.getState()`. -/
structure PreferencesStoreState where
  selectedAddress : Option String
  useTokenDetection : Option Bool
deriving DecidableEq, Repr

/-- The tokens controller state visible through `tokensController.state`. -/
structure TokensControllerState where
  tokens : List TokenDescriptor
  ignoredTokens : List String
  detectedTokens : List TokenDescriptor
deriving DecidableEq, Repr

/-- Constructor configuration: every collaborator is optional, matching
the optional chaining in the constructor; `interval = none` models the
parameter being omitted (JavaScript default `DEFAULT_INTERVAL`). -/
structure DetectTokensConfig where
  interval : Option Nat
  preferences : Option PreferencesStoreState
  network : Option Unit
  keyringMemStore : Option Unit
  tokenList : Option Unit
  tokensController : Option TokensControllerState
  assetsContractController : Option Unit
  trackMetaMetricsEvent : Option Unit
deriving Repr

/-- A configuration with every collaborator absent and `interval` omitted. -/
def emptyConfig : DetectTokensConfig :=
  { interval := none, preferences := none, network := none,
    keyringMemStore := none, tokenList := none, tokensController := none,
    assetsContractController := none, trackMetaMetricsEvent := none }

/-- The constructor (lines 31–76): optional chaining turns absent
collaborators into `undefined` mirrors; `this.interval = interval`
invokes the interval setter, arming the timer whenever the (defaulted)
interval is truthy. `isOpen` and `isUnlocked` start `undefined`. -/
def mkDetectTokensController (cfg : DetectTokensConfig) : DetectTokensState :=
  { selectedAddress := cfg.preferences.bind PreferencesStoreState.selectedAddress,
    useTokenDetection := cfg.preferences.bind PreferencesStoreState.useTokenDetection,
    tokenAddresses := cfg.tokensController.map
      (fun s => s.tokens.map TokenDescriptor.address),
    hiddenTokens := cfg.tokensController.map TokensControllerState.ignoredTokens,
    detectedTokens := cfg.tokensController.map TokensControllerState.detectedTokens,
    isOpen := none,
    isUnlocked := none,
    handle := setIntervalSetter (Option.getD cfg.interval DEFAULT_INTERVAL) }

/-- The token-address lists passed to the oracle, in call order. -/
def oracleCallsOf (es : List Effect) : List (List String) :=
  es.filterMap (fun e =>
    match e with
    | Effect.oracleCall _ ts => some ts
    | _ => none)

/-- The record lists written to the detected-token store, in call order. -/
def storeWritesOf (es : List Effect) : List (List DetectedTokenRecord) :=
  es.filterMap (fun e =>
    match e with
    | Effect.addDetectedTokens ts => some ts
    | _ => none)

/-- The telemetry events emitted, in order:
(token details, token standard, asset type). -/
def trackEventsOf (es : List Effect) : List (List String × String × String) :=
  es.filterMap (fun e =>
    match e with
    | Effect.trackTokenDetected _ _ tokens std ty => some (tokens, std, ty)
    | _ => none)

/-- Number of warnings logged. -/
def warnCount (es : List Effect) : Nat :=
  (es.filter (fun e =>
    match e with
    | Effect.warnFetchFailed => true
    | _ => false)).length

/-! ### Basic facts about the candidate filter -/

/-- The per-key predicate of the candidate loop: the key is kept when
none of the three mirrors has a truthy match for it. -/
def passesFilter (ta hid : List String) (det : List TokenDescriptor)
    (k : String) : Bool :=
  !truthyFindString ta k && (!truthyFindString hid k &&
    !(det.find? (fun t => isEqualCaseInsensitive t.address k)).isSome)

theorem tokensToDetectLoop_eq_filter (ta hid : List String)
    (det : List TokenDescriptor) (ks : List String) :
    tokensToDetectLoop (some ta) (some hid) (some det) ks
      = some (ks.filter (passesFilter ta hid det)) := by
  induction ks with
  | nil => rfl
  | cons k ks ih =>
    by_cases h1 : truthyFindString ta k = true
    · simp [tokensToDetectLoop, List.filter_cons, passesFilter, h1, ih]
    · by_cases h2 : truthyFindString hid k = true
      · simp [tokensToDetectLoop, List.filter_cons, passesFilter, h1, h2, ih]
      · by_cases h3 :
          (det.find? (fun t => isEqualCaseInsensitive t.address k)).isSome = true
        · simp [tokensToDetectLoop, List.filter_cons, passesFilter, h1, h2, h3, ih]
        · simp [tokensToDetectLoop, List.filter_cons, passesFilter, h1, h2, h3, ih]

theorem tokensToDetect_eq_filter (tl : List (String × TokenDescriptor))
    (ta hid : List String) (det : List TokenDescriptor) :
    tokensToDetect tl (some ta) (some hid) (some det)
      = some ((tl.map Prod.fst).filter (passesFilter ta hid det)) :=
  tokensToDetectLoop_eq_filter ta hid det (tl.map Prod.fst)

theorem passesFilter_no_known (k : String) : passesFilter [] [] [] k = true := rfl

theorem tokensToDetect_no_known (tl : List (String × TokenDescriptor)) :
    tokensToDetect tl (some []) (some []) (some []) = some (tl.map Prod.fst) := by
  rw [tokensToDetect_eq_filter]
  exact congrArg some (List.filter_eq_self.mpr (fun a _ => passesFilter_no_known a))

/-! ### Concrete fixtures used by witnesses and counterexamples -/

/-- A trivial environment: empty catalog, detection enabled on every
network, oracle always returns a falsy result. -/
def envTriv : Env :=
  { isTokenDetectionEnabledForNetwork := fun _ => true,
    chainId := "0x1",
    tokenList := [],
    getBalancesInSingleCall := fun _ _ => OracleOutcome.falsy }

def descA : TokenDescriptor :=
  { address := "0xA", symbol := "AAA", decimals := 18, iconUrl := "a.svg",
    aggregators := ["agg1"] }

def descB : TokenDescriptor :=
  { address := "0xB", symbol := "BBB", decimals := 8, iconUrl := "b.svg",
    aggregators := [] }

def descC : TokenDescriptor :=
  { address := "0xC", symbol := "CCC", decimals := 6, iconUrl := "c.svg",
    aggregators := [] }

/-- A three-entry catalog keyed by the descriptor addresses. -/
def catalogABC : List (String × TokenDescriptor) :=
  [("0xA", descA), ("0xB", descB), ("0xC", descC)]

/-- Environment with the three-entry catalog and an always-falsy oracle. -/
def envABC : Env :=
  { isTokenDetectionEnabledForNetwork := fun _ => true,
    chainId := "0x1",
    tokenList := catalogABC,
    getBalancesInSingleCall := fun _ _ => OracleOutcome.falsy }

/-- Controller state with the activity gate open, detection enabled, a
selected account and empty known-set mirrors. -/
def stOpen : DetectTokensState :=
  { selectedAddress := some "0xacc", useTokenDetection := some true,
    tokenAddresses := some [], hiddenTokens := some [],
    detectedTokens := some [], isOpen := some true, isUnlocked := some true,
    handle := none }

/-- Same as `stOpen` but with the session locked. -/
def stLocked : DetectTokensState := { stOpen with isUnlocked := some false }

/-- Same as `stOpen` but with the detection preference off. -/
def stDetectionOff : DetectTokensState :=
  { stOpen with useTokenDetection := some false }

/-- Same as `stOpen` but with no selected address (`undefined`). -/
def stNoAddress : DetectTokensState := { stOpen with selectedAddress := none }

/-! ### Claim C3 -/

/-- Claim C3: a tick (timer-driven `detectNewTokens` or manual
`restartTokenDetection`) while the activity gate is closed performs zero
oracle calls and zero store writes — the effect trace is empty — and is
not an error (no warning, no exception, no state change). -/
theorem claim_C3_gate_closed (env : Env) (st : DetectTokensState)
    (h : st.isActive = false) :
    detectNewTokens env st = ([], false)
    ∧ restartTokenDetection env st = (st, ([], false)) := by
  constructor
  · unfold detectNewTokens
    rw [h]
    rfl
  · unfold restartTokenDetection
    rw [h]
    rfl

/-- Witness for C3 at a concrete locked state. -/
theorem claim_C3_witness :
    detectNewTokens envABC stLocked = ([], false)
    ∧ restartTokenDetection envABC stLocked = (stLocked, ([], false)) :=
  claim_C3_gate_closed envABC stLocked rfl

/-! ### Claim C10 -/

/-- Claim C10: even with the activity gate open, a run performs no
catalog read, no oracle call and no store write unless the mirrored
detection preference is truthy and token detection is enabled for the
current chain id; it returns silently without error. -/
theorem claim_C10_detection_disabled (env : Env) (st : DetectTokensState)
    (hA : st.isActive = true)
    (h : truthy st.useTokenDetection = false
      ∨ env.isTokenDetectionEnabledForNetwork env.chainId = false) :
    detectNewTokens env st = ([], false) := by
  unfold detectNewTokens
  rw [hA]
  rcases h with h | h <;> simp [h]

/-- Witness for C10: gate open, detection preference off. -/
theorem claim_C10_witness :
    detectNewTokens envABC stDetectionOff = ([], false) :=
  claim_C10_detection_disabled envABC stDetectionOff rfl (Or.inl rfl)

/-! ### Claim C6 -/

/-- Counterexample to claim C6 as stated: with the activity gate open
(view active and session unlocked) but no selected address,
`restartTokenDetection` is a no-op — it neither runs the pipeline (whose
run would have issued oracle calls, as the last conjunct shows) nor
re-applies the default interval to the timer. -/
theorem claim_C6_counterexample :
    stNoAddress.isActive = true
    ∧ restartTokenDetection envABC stNoAddress = (stNoAddress, ([], false))
    ∧ (restartTokenDetection envABC stNoAddress).1.handle ≠ some DEFAULT_INTERVAL
    ∧ oracleCallsOf (detectNewTokens envABC stNoAddress).1 ≠ [] := by decide

/-- Claim C6 as amended: `restartTokenDetection` is a no-op unless the
activity gate is open AND the mirrored selected address is truthy; when
both hold it immediately runs the pipeline once and re-arms the timer
with the same default interval value. -/
theorem claim_C6_amended (env : Env) (st : DetectTokensState) :
    (¬(st.isActive = true ∧ truthyString st.selectedAddress = true) →
       restartTokenDetection env st = (st, ([], false)))
    ∧ (st.isActive = true → truthyString st.selectedAddress = true →
       restartTokenDetection env st =
         ({ st with handle := setIntervalSetter DEFAULT_INTERVAL },
          detectNewTokens env st)) := by
  constructor
  · intro h
    have hb : (st.isActive && truthyString st.selectedAddress) = false := by
      cases hA : st.isActive <;> cases hS : truthyString st.selectedAddress <;>
        simp_all
    unfold restartTokenDetection
    rw [hb]
    rfl
  · intro h1 h2
    unfold restartTokenDetection
    rw [h1, h2]
    rfl

/-- Witness for the amended C6 at a concrete open-gate state. -/
theorem claim_C6_amended_witness :
    restartTokenDetection envABC stOpen =
      ({ stOpen with handle := setIntervalSetter DEFAULT_INTERVAL },
       detectNewTokens envABC stOpen) :=
  (claim_C6_amended envABC stOpen).2 rfl rfl

/-! ### Claim C8 -/

/-- Counterexample to claim C8 as stated: constructing the controller
with every collaborator missing does not fail — it produces a controller
state — and the repeating timer IS armed (with the default interval),
contradicting both the fail-fast requirement and the unarmed-timer
requirement. -/
theorem claim_C8_counterexample :
    (mkDetectTokensController emptyConfig).handle = some DEFAULT_INTERVAL
    ∧ (mkDetectTokensController emptyConfig).handle ≠ none := by decide

/-- Claim C8 as amended: construction with missing collaborators does not
fail fast; optional chaining leaves the corresponding mirrors
`undefined`, and the timer is armed exactly when the (defaulted) interval
is non-zero — in particular it is armed with the default interval when
the interval option is omitted, collaborators present or not. -/
theorem claim_C8_amended (cfg : DetectTokensConfig) :
    ((mkDetectTokensController cfg).handle ≠ none
      ↔ Option.getD cfg.interval DEFAULT_INTERVAL ≠ 0)
    ∧ (cfg.preferences = none →
        (mkDetectTokensController cfg).selectedAddress = none
        ∧ (mkDetectTokensController cfg).useTokenDetection = none)
    ∧ (cfg.tokensController = none →
        (mkDetectTokensController cfg).tokenAddresses = none
        ∧ (mkDetectTokensController cfg).hiddenTokens = none
        ∧ (mkDetectTokensController cfg).detectedTokens = none)
    ∧ (cfg.interval = none →
        (mkDetectTokensController cfg).handle = some DEFAULT_INTERVAL) := by
  refine ⟨?_, ?_, ?_, ?_⟩
  · unfold mkDetectTokensController setIntervalSetter
    split <;> simp_all
  · intro h
    unfold mkDetectTokensController
    rw [h]
    exact ⟨rfl, rfl⟩
  · intro h
    unfold mkDetectTokensController
    rw [h]
    exact ⟨rfl, rfl, rfl⟩
  · intro h
    unfold mkDetectTokensController
    rw [h]
    rfl

/-- Witness for the amended C8 at the all-missing configuration. -/
theorem claim_C8_amended_witness :
    (mkDetectTokensController emptyConfig).handle = some DEFAULT_INTERVAL
    ∧ (mkDetectTokensController emptyConfig).selectedAddress = none := by
  have h := claim_C8_amended emptyConfig
  exact ⟨h.2.2.2 rfl, (h.2.1 rfl).1⟩

/-! ### Claim C9 -/

theorem restartTokenDetection_fst_mirrors (env : Env) (st : DetectTokensState) :
    (restartTokenDetection env st).1.selectedAddress = st.selectedAddress
    ∧ (restartTokenDetection env st).1.useTokenDetection = st.useTokenDetection := by
  unfold restartTokenDetection
  split <;> exact ⟨rfl, rfl⟩

/-- Claim C9: the preference-change callback updates the mirror and
restarts only when the delivered `(selectedAddress, useTokenDetection)`
pair differs from the mirrored pair; consequently, of two consecutive
notifications delivering the same pair, the second one is always a no-op,
so at most one pipeline run is triggered. -/
theorem claim_C9_restart_coalescing (env : Env) (st : DetectTokensState)
    (sa : Option String) (utd : Option Bool) :
    (st.selectedAddress = sa ∧ st.useTokenDetection = utd →
       preferencesListener env st sa utd = (st, ([], false)))
    ∧ preferencesListener env (preferencesListener env st sa utd).1 sa utd
        = ((preferencesListener env st sa utd).1, ([], false)) := by
  constructor
  · intro h
    unfold preferencesListener
    rw [if_neg]
    intro hc
    rcases hc with hc | hc
    · exact hc h.1
    · exact hc h.2
  · have hmir : (preferencesListener env st sa utd).1.selectedAddress = sa
        ∧ (preferencesListener env st sa utd).1.useTokenDetection = utd
        ∨ (preferencesListener env st sa utd).1 = st
          ∧ st.selectedAddress = sa ∧ st.useTokenDetection = utd := by
      unfold preferencesListener
      by_cases hc : st.selectedAddress ≠ sa ∨ st.useTokenDetection ≠ utd
      · rw [if_pos hc]
        left
        exact restartTokenDetection_fst_mirrors env _
      · rw [if_neg hc]
        right
        push_neg at hc
        exact ⟨rfl, hc.1, hc.2⟩
    rcases hmir with ⟨h1, h2⟩ | ⟨h1, h2, h3⟩
    · unfold preferencesListener
      rw [if_neg]
      intro hc
      rcases hc with hc | hc
      · exact hc h1
      · exact hc h2
    · rw [h1]
      unfold preferencesListener
      rw [if_neg]
      intro hc
      rcases hc with hc | hc
      · exact hc h2
      · exact hc h3

/-- Witness for C9: a notification carrying exactly the mirrored pair is
a no-op. -/
theorem claim_C9_witness :
    preferencesListener envABC stOpen (some "0xacc") (some true)
      = (stOpen, ([], false)) :=
  (claim_C9_restart_coalescing envABC stOpen (some "0xacc") (some true)).1
    ⟨rfl, rfl⟩

/-! ### The batch loop's oracle-call trace -/

theorem oracleCallsOf_cons_call (acct : Option String) (ts : List String)
    (es : List Effect) :
    oracleCallsOf (Effect.oracleCall acct ts :: es) = ts :: oracleCallsOf es := rfl

theorem oracleCallsOf_cons_read (es : List Effect) :
    oracleCallsOf (Effect.readTokenList :: es) = oracleCallsOf es := rfl

theorem oracleCallsOf_append (es1 es2 : List Effect) :
    oracleCallsOf (es1 ++ es2) = oracleCallsOf es1 ++ oracleCallsOf es2 :=
  List.filterMap_append es1 es2 _

/-- Reconciliation effects contain no oracle call: the only effects a
successful batch result can produce are one telemetry event and one
store write. -/
theorem oracleCallsOf_batchResultEffects (tl : List (String × TokenDescriptor))
    (ks : List String) (es : List Effect)
    (h : batchResultEffects tl ks = some es) : oracleCallsOf es = [] := by
  unfold batchResultEffects at h
  cases hb : buildDiscoveries tl ks with
  | none => rw [hb] at h; cases h
  | some dr =>
    obtain ⟨details, recs⟩ := dr
    rw [hb] at h
    simp only at h
    by_cases hr : recs.length > 0
    · rw [if_pos hr] at h
      simp only [Option.some.injEq] at h
      subst h
      rfl
    · rw [if_neg hr] at h
      simp only [Option.some.injEq] at h
      subst h
      rfl

theorem runBatches_nil (env : Env) (acct : Option String) :
    runBatches env acct [] = ([], false) := rfl

theorem runBatches_cons_throw (env : Env) (acct : Option String)
    (s : List String) (rest : List (List String))
    (h : env.getBalancesInSingleCall acct s = OracleOutcome.throw) :
    runBatches env acct (s :: rest)
      = ([Effect.oracleCall acct s, Effect.warnFetchFailed], false) := by
  simp only [runBatches, h]

theorem runBatches_cons_falsy (env : Env) (acct : Option String)
    (s : List String) (rest : List (List String))
    (h : env.getBalancesInSingleCall acct s = OracleOutcome.falsy) :
    runBatches env acct (s :: rest)
      = (Effect.oracleCall acct s :: (runBatches env acct rest).1,
         (runBatches env acct rest).2) := by
  simp only [runBatches, h]

theorem runBatches_cons_keys (env : Env) (acct : Option String)
    (s : List String) (rest : List (List String)) (ks : List String)
    (es : List Effect)
    (h : env.getBalancesInSingleCall acct s = OracleOutcome.keys ks)
    (hb : batchResultEffects env.tokenList ks = some es) :
    runBatches env acct (s :: rest)
      = (Effect.oracleCall acct s :: (es ++ (runBatches env acct rest).1),
         (runBatches env acct rest).2) := by
  simp only [runBatches, h, hb]

/-- When no batch's oracle call throws and every successful result
reconciles without an exception, the batch loop issues exactly one oracle
call per slice, in order — including for empty slices. -/
theorem runBatches_calls (env : Env) (acct : Option String)
    (ss : List (List String))
    (hot : ∀ s ∈ ss, env.getBalancesInSingleCall acct s ≠ OracleOutcome.throw)
    (hok : ∀ s ∈ ss, ∀ ks,
      env.getBalancesInSingleCall acct s = OracleOutcome.keys ks →
      (batchResultEffects env.tokenList ks).isSome) :
    oracleCallsOf (runBatches env acct ss).1 = ss
    ∧ (runBatches env acct ss).2 = false := by
  induction ss with
  | nil => exact ⟨rfl, rfl⟩
  | cons s rest ih =>
    obtain ⟨ih1, ih2⟩ :=
      ih (fun s' hs' => hot s' (List.mem_cons_of_mem s hs'))
        (fun s' hs' => hok s' (List.mem_cons_of_mem s hs'))
    cases ho : env.getBalancesInSingleCall acct s with
    | throw => exact absurd ho (hot s (List.mem_cons_self s rest))
    | falsy =>
      rw [runBatches_cons_falsy env acct s rest ho]
      exact ⟨by rw [oracleCallsOf_cons_call, ih1], ih2⟩
    | keys ks =>
      obtain ⟨es, hes⟩ := Option.isSome_iff_exists.mp
        (hok s (List.mem_cons_self s rest) ks ho)
      rw [runBatches_cons_keys env acct s rest ks es ho hes]
      refine ⟨?_, ih2⟩
      rw [oracleCallsOf_cons_call, oracleCallsOf_append,
        oracleCallsOf_batchResultEffects env.tokenList ks es hes, ih1]
      rfl

/-- Every token list passed to the oracle is one of the input slices. -/
theorem oracleCallsOf_runBatches_mem (env : Env) (acct : Option String) :
    ∀ ss : List (List String),
      ∀ ts ∈ oracleCallsOf (runBatches env acct ss).1, ts ∈ ss := by
  intro ss
  induction ss with
  | nil => intro ts hts; cases hts
  | cons s rest ih =>
    intro ts hts
    cases ho : env.getBalancesInSingleCall acct s with
    | throw =>
      rw [runBatches_cons_throw env acct s rest ho] at hts
      have : ts = s := by simpa [oracleCallsOf] using hts
      exact this ▸ List.mem_cons_self s rest
    | falsy =>
      rw [runBatches_cons_falsy env acct s rest ho,
        oracleCallsOf_cons_call] at hts
      rcases List.mem_cons.mp hts with h | h
      · exact h ▸ List.mem_cons_self s rest
      · exact List.mem_cons_of_mem s (ih ts h)
    | keys ks =>
      cases hb : batchResultEffects env.tokenList ks with
      | none =>
        have : runBatches env acct (s :: rest)
            = ([Effect.oracleCall acct s], true) := by
          simp only [runBatches, ho, hb]
        rw [this] at hts
        have : ts = s := by simpa [oracleCallsOf] using hts
        exact this ▸ List.mem_cons_self s rest
      | some es =>
        rw [runBatches_cons_keys env acct s rest ks es ho hb,
          oracleCallsOf_cons_call, oracleCallsOf_append,
          oracleCallsOf_batchResultEffects env.tokenList ks es hb] at hts
        rcases List.mem_cons.mp hts with h | h
        · exact h ▸ List.mem_cons_self s rest
        · exact List.mem_cons_of_mem s (ih ts h)

/-- With the activity gate open and detection enabled, `detectNewTokens`
reads the token list, resolves candidates and runs the batch loop on the
two hard-coded slices. -/
theorem detectNewTokens_open (env : Env) (st : DetectTokensState)
    (cands : List String)
    (hA : st.isActive = true) (hU : truthy st.useTokenDetection = true)
    (hN : env.isTokenDetectionEnabledForNetwork env.chainId = true)
    (hc : tokensToDetect env.tokenList st.tokenAddresses st.hiddenTokens
        st.detectedTokens = some cands) :
    detectNewTokens env st
      = (Effect.readTokenList ::
          (runBatches env st.selectedAddress (sliceOfTokensToDetect cands)).1,
         (runBatches env st.selectedAddress (sliceOfTokensToDetect cands)).2) := by
  unfold detectNewTokens
  rw [hA, hU, hN, hc]
  rfl

/-- Oracle-call trace of a full gate-open run without failures. -/
theorem detectNewTokens_calls (env : Env) (st : DetectTokensState)
    (cands : List String)
    (hA : st.isActive = true) (hU : truthy st.useTokenDetection = true)
    (hN : env.isTokenDetectionEnabledForNetwork env.chainId = true)
    (hc : tokensToDetect env.tokenList st.tokenAddresses st.hiddenTokens
        st.detectedTokens = some cands)
    (hot : ∀ s ∈ sliceOfTokensToDetect cands,
      env.getBalancesInSingleCall st.selectedAddress s ≠ OracleOutcome.throw)
    (hok : ∀ s ∈ sliceOfTokensToDetect cands, ∀ ks,
      env.getBalancesInSingleCall st.selectedAddress s = OracleOutcome.keys ks →
      (batchResultEffects env.tokenList ks).isSome) :
    oracleCallsOf (detectNewTokens env st).1 = sliceOfTokensToDetect cands
    ∧ (detectNewTokens env st).2 = false := by
  obtain ⟨h1, h2⟩ := runBatches_calls env st.selectedAddress
    (sliceOfTokensToDetect cands) hot hok
  rw [detectNewTokens_open env st cands hA hU hN hc]
  exact ⟨by rw [oracleCallsOf_cons_read, h1], h2⟩

/-! ### Claim C1 -/

/-- Counterexample to claim C1 as stated: with a 3-address candidate list
(one batch of at most 1000 under the claimed partition, so exactly one
oracle call is claimed), the code issues TWO oracle calls — the second
one carrying the empty token list, which is sent to the oracle instead of
being skipped as a no-op. -/
theorem claim_C1_counterexample :
    oracleCallsOf (detectNewTokens envABC stOpen).1 = [["0xA", "0xB", "0xC"], []]
    ∧ ([] : List String) ∈ oracleCallsOf (detectNewTokens envABC stOpen).1
    ∧ oracleCallsOf (detectNewTokens envABC stOpen).1 ≠ [["0xA", "0xB", "0xC"]] := by
  decide

/-- Claim C1 as amended: the batch split is hard-coded to exactly two
slices — the first `min n 1000` candidates, and the candidates at indices
`1000 ≤ i < n - 1` — and on a failure-free tick one oracle call is issued
per slice, in order, even when a slice is empty. In particular 2500
candidates yield two calls of sizes 1000 and 1499 (the last candidate is
dropped), and 1000 candidates yield calls of sizes 1000 and 0. -/
theorem claim_C1_amended (env : Env) (st : DetectTokensState)
    (cands : List String)
    (hA : st.isActive = true) (hU : truthy st.useTokenDetection = true)
    (hN : env.isTokenDetectionEnabledForNetwork env.chainId = true)
    (hc : tokensToDetect env.tokenList st.tokenAddresses st.hiddenTokens
        st.detectedTokens = some cands)
    (hot : ∀ s ∈ sliceOfTokensToDetect cands,
      env.getBalancesInSingleCall st.selectedAddress s ≠ OracleOutcome.throw)
    (hok : ∀ s ∈ sliceOfTokensToDetect cands, ∀ ks,
      env.getBalancesInSingleCall st.selectedAddress s = OracleOutcome.keys ks →
      (batchResultEffects env.tokenList ks).isSome) :
    oracleCallsOf (detectNewTokens env st).1
      = [cands.take 1000, (cands.drop 1000).take (cands.length - 1 - 1000)]
    ∧ (detectNewTokens env st).2 = false :=
  detectNewTokens_calls env st cands hA hU hN hc hot hok

/-! ### Large concrete candidate lists

Addresses are strings of distinct lengths so that freedom from
duplicates follows from injectivity instead of a quadratic kernel
computation. -/

def bigAddr (i : Nat) : String := String.mk (List.replicate i 'a')

def bigDesc (i : Nat) : TokenDescriptor :=
  { address := bigAddr i, symbol := "TOK", decimals := 18, iconUrl := "",
    aggregators := [] }

def bigCatalog (n : Nat) : List (String × TokenDescriptor) :=
  (List.range n).map (fun i => (bigAddr i, bigDesc i))

def bigCands (n : Nat) : List String := (List.range n).map bigAddr

/-- Environment with an `n`-entry catalog and an always-falsy oracle. -/
def envBig (n : Nat) : Env :=
  { isTokenDetectionEnabledForNetwork := fun _ => true,
    chainId := "0x1",
    tokenList := bigCatalog n,
    getBalancesInSingleCall := fun _ _ => OracleOutcome.falsy }

theorem bigAddr_injective : Function.Injective bigAddr := by
  intro i j h
  have := congrArg (fun s => s.data.length) h
  simpa [bigAddr] using this

theorem bigCatalog_keys (n : Nat) :
    (bigCatalog n).map Prod.fst = bigCands n := by
  simp [bigCatalog, bigCands, List.map_map, Function.comp]

theorem bigCands_length (n : Nat) : (bigCands n).length = n := by
  simp [bigCands]

theorem bigCands_nodup (n : Nat) : (bigCands n).Nodup :=
  (List.nodup_range n).map bigAddr_injective

theorem tokensToDetect_bigCatalog (n : Nat) :
    tokensToDetect (bigCatalog n) (some []) (some []) (some [])
      = some (bigCands n) := by
  rw [tokensToDetect_no_known, bigCatalog_keys]

set_option maxRecDepth 4000 in
/-- Witness for the amended C1: 2500 candidates produce exactly two
oracle calls, of sizes 1000 and 1499. -/
theorem claim_C1_amended_witness :
    (oracleCallsOf (detectNewTokens (envBig 2500) stOpen).1).map List.length
      = [1000, 1499] := by
  have h := claim_C1_amended (envBig 2500) stOpen (bigCands 2500) rfl rfl rfl
    (tokensToDetect_bigCatalog 2500)
    (fun s _ h => by simp [envBig] at h)
    (fun s _ ks h => by simp [envBig] at h)
  rw [h.1]
  simp [bigCands_length]

/-! ### Claim C7 -/

/-- For a duplicate-free candidate list longer than 1000, its last
element lies in neither of the two hard-coded slices. -/
theorem getLast_not_mem_slices (cands : List String) (hne : cands ≠ [])
    (hlen : 1000 < cands.length) (hnd : cands.Nodup) :
    cands.getLast hne ∉ cands.take 1000
    ∧ cands.getLast hne ∉ (cands.drop 1000).take (cands.length - 1 - 1000) := by
  have hsplit : cands.take 1000 ++ cands.drop 1000 = cands :=
    List.take_append_drop 1000 cands
  have hdlen : (cands.drop 1000).length = cands.length - 1000 :=
    List.length_drop 1000 cands
  have hd : cands.drop 1000 ≠ [] := by
    apply List.length_pos.mp
    omega
  have h2 : cands.take 1000 ++ cands.drop 1000 ≠ [] := by
    rw [hsplit]; exact hne
  have hlast : cands.getLast hne = (cands.drop 1000).getLast hd :=
    (List.getLast_congr hne h2 hsplit.symm).trans
      (List.getLast_append' (cands.take 1000) (cands.drop 1000) hd)
  have hnd2 : (cands.take 1000 ++ cands.drop 1000).Nodup := by
    rw [hsplit]; exact hnd
  have hdisj := (List.nodup_append.mp hnd2).2.2
  have hmem_d : cands.getLast hne ∈ cands.drop 1000 := by
    rw [hlast]; exact List.getLast_mem hd
  constructor
  · intro hmem
    exact hdisj hmem hmem_d
  · have hndd : (cands.drop 1000).Nodup := (List.nodup_append.mp hnd2).2.1
    have harith : cands.length - 1 - 1000 = (cands.drop 1000).length - 1 := by
      omega
    rw [harith, ← List.dropLast_eq_take]
    intro hmem
    have hdecomp := List.dropLast_append_getLast hd
    have hndd2 : ((cands.drop 1000).dropLast
        ++ [(cands.drop 1000).getLast hd]).Nodup := by
      rw [hdecomp]; exact hndd
    have hdisj2 := (List.nodup_append.mp hndd2).2.2
    rw [hlast] at hmem
    exact hdisj2 hmem (List.mem_singleton_self _)

set_option maxRecDepth 4000 in
/-- Counterexample to claim C7 as stated: with exactly 1000 candidates —
a positive multiple of 1000 — the final candidate IS included in an
oracle call (the first slice `take 1000` contains the whole list), so the
claimed silent drop does not happen at this length. -/
theorem claim_C7_counterexample :
    (bigCands 1000).length % 1000 = 0 ∧ 0 < (bigCands 1000).length
    ∧ (bigCands 1000).getLast (by simp [bigCands])
        ∈ (oracleCallsOf (detectNewTokens (envBig 1000) stOpen).1).flatten := by
  refine ⟨by rw [bigCands_length], by rw [bigCands_length]; omega, ?_⟩
  have hcalls := detectNewTokens_calls (envBig 1000) stOpen (bigCands 1000)
    rfl rfl rfl (tokensToDetect_bigCatalog 1000)
    (fun s _ h => by simp [envBig] at h)
    (fun s _ ks h => by simp [envBig] at h)
  rw [List.mem_flatten]
  refine ⟨bigCands 1000, ?_, List.getLast_mem _⟩
  rw [hcalls.1]
  have ht : (bigCands 1000).take 1000 = bigCands 1000 := by
    have h := List.take_length (bigCands 1000)
    rwa [bigCands_length] at h
  simp [sliceOfTokensToDetect, ht]

/-- Claim C7 as amended: for every duplicate-free candidate list of
length strictly greater than 1000 (in particular every multiple of 1000
from 2000 up, but NOT length exactly 1000), the hard-coded slice split
drops the last candidate: the final address appears in no oracle call
issued that tick — regardless of oracle behaviour. -/
theorem claim_C7_amended (env : Env) (st : DetectTokensState)
    (cands : List String)
    (hA : st.isActive = true) (hU : truthy st.useTokenDetection = true)
    (hN : env.isTokenDetectionEnabledForNetwork env.chainId = true)
    (hc : tokensToDetect env.tokenList st.tokenAddresses st.hiddenTokens
        st.detectedTokens = some cands)
    (hlen : 1000 < cands.length) (hnd : cands.Nodup) (hne : cands ≠ []) :
    cands.getLast hne ∉ (oracleCallsOf (detectNewTokens env st).1).flatten := by
  intro hmem
  rw [List.mem_flatten] at hmem
  obtain ⟨l, hl, hxl⟩ := hmem
  have hl2 : l ∈ sliceOfTokensToDetect cands := by
    rw [detectNewTokens_open env st cands hA hU hN hc,
      oracleCallsOf_cons_read] at hl
    exact oracleCallsOf_runBatches_mem env st.selectedAddress _ l hl
  obtain ⟨h1, h2⟩ := getLast_not_mem_slices cands hne hlen hnd
  have : l = cands.take 1000
      ∨ l = (cands.drop 1000).take (cands.length - 1 - 1000) := by
    simpa [sliceOfTokensToDetect] using hl2
  rcases this with h | h
  · exact h1 (h ▸ hxl)
  · exact h2 (h ▸ hxl)

set_option maxRecDepth 4000 in
/-- Witness for the amended C7: with 1001 candidates the last address is
in no oracle call. -/
theorem claim_C7_amended_witness :
    (bigCands 1001).getLast (by simp [bigCands])
      ∉ (oracleCallsOf (detectNewTokens (envBig 1001) stOpen).1).flatten :=
  claim_C7_amended (envBig 1001) stOpen (bigCands 1001) rfl rfl rfl
    (tokensToDetect_bigCatalog 1001)
    (by rw [bigCands_length]; omega)
    (bigCands_nodup 1001)
    (by simp [bigCands])

/-! ### Claim C2 -/

theorem find?_isSome_eq_false_iff {α : Type} (l : List α) (q : α → Bool) :
    ((l.find? q).isSome = false) ↔ ∀ t ∈ l, q t = false := by
  cases hf : l.find? q with
  | none =>
    simp only [List.find?_eq_none, Bool.not_eq_true] at hf
    simp only [Option.isSome_none]
    exact ⟨fun _ t ht => hf t ht, fun _ => trivial⟩
  | some a =>
    have hp := List.find?_some hf
    have hm := List.mem_of_find?_eq_some hf
    simp only [Option.isSome_some]
    constructor
    · intro h
      exact absurd h (by decide)
    · intro hall
      rw [hall a hm] at hp
      exact Bool.noConfusion hp

/-- With only non-empty addresses in the mirror list, the JavaScript
truthiness of `.find` agrees with plain absence of a case-insensitive
match. -/
theorem truthyFindString_eq_false_iff (l : List String) (k : String)
    (h : ∀ a ∈ l, a ≠ "") :
    truthyFindString l k = false
      ↔ ∀ a ∈ l, isEqualCaseInsensitive a k = false := by
  unfold truthyFindString
  cases hf : l.find? (fun a => isEqualCaseInsensitive a k) with
  | none =>
    simp only [List.find?_eq_none, Bool.not_eq_true] at hf
    constructor
    · intro _ a ha
      exact hf a ha
    · intro _
      rfl
  | some a =>
    have hp0 := List.find?_some hf
    have hp : isEqualCaseInsensitive a k = true := hp0
    have hm : a ∈ l := List.mem_of_find?_eq_some hf
    have hne : a ≠ "" := h a hm
    constructor
    · intro hfalse
      have hfalse2 : (!(a == "")) = false := hfalse
      exfalso
      apply hne
      cases hb : (a == "") with
      | true => exact eq_of_beq hb
      | false =>
        rw [hb] at hfalse2
        exact Bool.noConfusion hfalse2
    · intro hall
      rw [hall a hm] at hp
      exact Bool.noConfusion hp

/-- Characterization of the candidate predicate when the `held` and
`hidden` mirrors contain no empty-string address. -/
theorem passesFilter_eq_true_iff (ta hid : List String)
    (det : List TokenDescriptor) (k : String)
    (hta : ∀ a ∈ ta, a ≠ "") (hhid : ∀ a ∈ hid, a ≠ "") :
    passesFilter ta hid det k = true
      ↔ (∀ a ∈ ta, isEqualCaseInsensitive a k = false)
        ∧ (∀ a ∈ hid, isEqualCaseInsensitive a k = false)
        ∧ (∀ t ∈ det, isEqualCaseInsensitive t.address k = false) := by
  unfold passesFilter
  rw [Bool.and_eq_true, Bool.and_eq_true, Bool.not_eq_true', Bool.not_eq_true',
    Bool.not_eq_true', truthyFindString_eq_false_iff ta k hta,
    truthyFindString_eq_false_iff hid k hhid, find?_isSome_eq_false_iff]

/-- Descriptor of a token catalogued under the empty-string address. -/
def descEmpty : TokenDescriptor :=
  { address := "", symbol := "EMP", decimals := 0, iconUrl := "",
    aggregators := [] }

/-- Counterexample to claim C2 as stated: the address `""` is present
(case-insensitively — here literally) in the held-tokens mirror, yet it
appears in the computed candidate list, because JavaScript `.find`
returns the matching element itself and the empty string is falsy, so
`!found` misreads the match as absence. -/
theorem claim_C2_counterexample :
    tokensToDetect [("", descEmpty)]
      (some [""]) (some []) (some []) = some [""]
    ∧ isEqualCaseInsensitive "" "" = true := by decide

/-- Claim C2 as amended: provided the held and hidden mirrors contain no
empty-string address, the candidate list consists of exactly those
catalog addresses absent (case-insensitively) from all three known sets,
in catalog iteration order (a sublist of the catalog's key order, and the
computation mutates nothing — it is a pure function); in particular for
catalog `{0xA, 0xB, 0xC}` with held `{0XA}`, hidden `{0xB}`, detected
`{}` the candidate list is exactly `[0xC]`. -/
theorem claim_C2_amended :
    (∀ (tl : List (String × TokenDescriptor)) (ta hid : List String)
        (det : List TokenDescriptor) (k : String),
      (∀ a ∈ ta, a ≠ "") → (∀ a ∈ hid, a ≠ "") →
      ∀ l, tokensToDetect tl (some ta) (some hid) (some det) = some l →
      (k ∈ l ↔ k ∈ tl.map Prod.fst
        ∧ (∀ a ∈ ta, isEqualCaseInsensitive a k = false)
        ∧ (∀ a ∈ hid, isEqualCaseInsensitive a k = false)
        ∧ (∀ t ∈ det, isEqualCaseInsensitive t.address k = false)))
    ∧ (∀ (tl : List (String × TokenDescriptor)) (ta hid : List String)
        (det : List TokenDescriptor) (l : List String),
        tokensToDetect tl (some ta) (some hid) (some det) = some l →
        l.Sublist (tl.map Prod.fst))
    ∧ tokensToDetect catalogABC (some ["0XA"]) (some ["0xB"]) (some [])
        = some ["0xC"] := by
  refine ⟨?_, ?_, by decide⟩
  · intro tl ta hid det k hta hhid l hl
    have heq : l = (tl.map Prod.fst).filter (passesFilter ta hid det) :=
      Option.some.inj (hl.symm.trans (tokensToDetect_eq_filter tl ta hid det))
    rw [heq, List.mem_filter, passesFilter_eq_true_iff ta hid det k hta hhid]
  · intro tl ta hid det l hl
    have heq : l = (tl.map Prod.fst).filter (passesFilter ta hid det) :=
      Option.some.inj (hl.symm.trans (tokensToDetect_eq_filter tl ta hid det))
    rw [heq]
    exact List.filter_sublist _

/-- Witness for the amended C2: `0xC` is a candidate of the concrete
catalog since it matches nothing in the three known sets. -/
theorem claim_C2_amended_witness : ("0xC" : String) ∈ ["0xC"] := by
  have h := claim_C2_amended.1 catalogABC ["0XA"] ["0xB"] [] "0xC"
    (by decide) (by decide) ["0xC"] (by decide)
  exact h.mpr (by decide)

/-! ### Claim C5 -/

theorem buildDiscoveries_details (tl : List (String × TokenDescriptor)) :
    ∀ (ks details : List String) (recs : List DetectedTokenRecord),
      buildDiscoveries tl ks = some (details, recs) →
      details = recs.map (fun r => r.symbol ++ " - " ++ r.address) := by
  intro ks
  induction ks with
  | nil =>
    intro details recs h
    simp only [buildDiscoveries, Option.some.injEq, Prod.mk.injEq] at h
    obtain ⟨h1, h2⟩ := h
    subst h1
    subst h2
    rfl
  | cons k ks ih =>
    intro details recs h
    unfold buildDiscoveries at h
    cases hl : lookupToken tl k with
    | none =>
      rw [hl] at h
      simp at h
    | some d =>
      cases hb : buildDiscoveries tl ks with
      | none =>
        rw [hl, hb] at h
        simp at h
      | some dr =>
        obtain ⟨ds, rs⟩ := dr
        rw [hl, hb] at h
        simp only [Option.some.injEq, Prod.mk.injEq] at h
        obtain ⟨h1, h2⟩ := h
        subst h1
        subst h2
        rw [ih ds rs hb]
        rfl

/-- Claim C5: per batch result, the reconciler derives the discovery
list; when non-empty it emits exactly one telemetry event carrying every
discovery's `symbol - address` pair with the fixed ERC20 token-standard
label and the fixed TOKEN asset-type label, and performs exactly one
store write with the full discovery list — those two effects and nothing
else; when empty it emits no event and performs no write. -/
theorem claim_C5_reconciler (tl : List (String × TokenDescriptor))
    (ks details : List String) (recs : List DetectedTokenRecord)
    (h : buildDiscoveries tl ks = some (details, recs)) :
    details = recs.map (fun r => r.symbol ++ " - " ++ r.address)
    ∧ (recs ≠ [] → batchResultEffects tl ks
        = some [Effect.trackTokenDetected EVENT_NAMES_TOKEN_DETECTED
            EVENT_CATEGORIES_WALLET details TOKEN_STANDARDS_ERC20
            ASSET_TYPES_TOKEN,
          Effect.addDetectedTokens recs])
    ∧ (recs = [] → batchResultEffects tl ks = some []) := by
  refine ⟨buildDiscoveries_details tl ks details recs h, ?_, ?_⟩
  · intro hne
    unfold batchResultEffects
    rw [h]
    simp only
    rw [if_pos (List.length_pos.mpr hne)]
  · intro hnil
    subst hnil
    unfold batchResultEffects
    rw [h]
    simp

/-! ### Claim C4 -/

/-- The token object as it is mirrored back into the `detectedTokens`
mirror once `addDetectedTokens` has persisted it and the tokens
controller has published its new state (same object; the `image` field
plays the role of `iconUrl`, and only `address` is read by the
candidate filter). -/
def recordToToken (r : DetectedTokenRecord) : TokenDescriptor :=
  { address := r.address, symbol := r.symbol, decimals := r.decimals,
    iconUrl := r.image, aggregators := r.aggregators }

theorem isEqualCaseInsensitive_iff (a b : String) :
    isEqualCaseInsensitive a b = true
      ↔ a.data.map Char.toLower = b.data.map Char.toLower := by
  simp [isEqualCaseInsensitive]

theorem lookupToken_mem (tl : List (String × TokenDescriptor)) (k : String)
    (d : TokenDescriptor) (h : lookupToken tl k = some d) :
    ∃ p ∈ tl, p.1 = k ∧ p.2 = d := by
  unfold lookupToken at h
  cases hf : tl.find? (fun p => p.1 == k) with
  | none => rw [hf] at h; cases h
  | some p =>
    rw [hf] at h
    simp only [Option.map_some', Option.some.injEq] at h
    refine ⟨p, List.mem_of_find?_eq_some hf, ?_, h⟩
    have hp := List.find?_some hf
    have hp2 : (p.1 == k) = true := hp
    exact eq_of_beq hp2

/-- Every discovery record's address is the catalog descriptor's address
of one of the batch result's keys. -/
theorem buildDiscoveries_addresses (tl : List (String × TokenDescriptor)) :
    ∀ (ks details : List String) (recs : List DetectedTokenRecord),
      buildDiscoveries tl ks = some (details, recs) →
      ∀ r ∈ recs, ∃ k ∈ ks, ∃ d, lookupToken tl k = some d
        ∧ r.address = d.address := by
  intro ks
  induction ks with
  | nil =>
    intro details recs h r hr
    simp only [buildDiscoveries, Option.some.injEq, Prod.mk.injEq] at h
    obtain ⟨h1, h2⟩ := h
    subst h2
    cases hr
  | cons k ks ih =>
    intro details recs h r hr
    unfold buildDiscoveries at h
    cases hl : lookupToken tl k with
    | none => rw [hl] at h; simp at h
    | some d =>
      cases hb : buildDiscoveries tl ks with
      | none => rw [hl, hb] at h; simp at h
      | some dr =>
        obtain ⟨ds, rs⟩ := dr
        rw [hl, hb] at h
        simp only [Option.some.injEq, Prod.mk.injEq] at h
        obtain ⟨h1, h2⟩ := h
        subst h2
        rcases List.mem_cons.mp hr with hr | hr
        · subst hr
          exact ⟨k, List.mem_cons_self k ks, d, hl, rfl⟩
        · obtain ⟨k', hk', d', hld', hra⟩ := ih ds rs hb r hr
          exact ⟨k', List.mem_cons_of_mem k hk', d', hld', hra⟩

/-- Appending records whose addresses match nothing keeps a candidate a
candidate. -/
theorem passesFilter_det_append (ta hid : List String)
    (det extra : List TokenDescriptor) (k : String)
    (h : passesFilter ta hid det k = true)
    (hex : ∀ t ∈ extra, isEqualCaseInsensitive t.address k = false) :
    passesFilter ta hid (det ++ extra) k = true := by
  unfold passesFilter at h ⊢
  simp only [Bool.and_eq_true, Bool.not_eq_true'] at h ⊢
  obtain ⟨h1, h2, h3⟩ := h
  refine ⟨h1, h2, ?_⟩
  rw [find?_isSome_eq_false_iff] at h3 ⊢
  intro t ht
  rcases List.mem_append.mp ht with ht | ht
  · exact h3 t ht
  · exact hex t ht

/-- The addresses of the second slice remain candidates after the first
slice's discoveries are appended to the detected mirror. -/
theorem eligibility_after_partial_write
    (tl : List (String × TokenDescriptor)) (ta hid : List String)
    (det : List TokenDescriptor) (cands s0 s1 : List String)
    (ks0 details0 : List String) (recs0 : List DetectedTokenRecord)
    (hc : tokensToDetect tl (some ta) (some hid) (some det) = some cands)
    (hs0 : s0 = cands.take 1000)
    (hs1 : s1 = (cands.drop 1000).take (cands.length - 1 - 1000))
    (hb : buildDiscoveries tl ks0 = some (details0, recs0))
    (hsub : ∀ k ∈ ks0, k ∈ s0)
    (hpair : (tl.map Prod.fst).Pairwise
      (fun a b => isEqualCaseInsensitive a b = false))
    (haddr : ∀ p ∈ tl, isEqualCaseInsensitive p.2.address p.1 = true) :
    ∀ a ∈ s1, ∀ l,
      tokensToDetect tl (some ta) (some hid)
        (some (det ++ recs0.map recordToToken)) = some l → a ∈ l := by
  intro a ha l hl
  have hcands_eq : cands = (tl.map Prod.fst).filter (passesFilter ta hid det) :=
    Option.some.inj (hc.symm.trans (tokensToDetect_eq_filter tl ta hid det))
  have hl_eq : l = (tl.map Prod.fst).filter
      (passesFilter ta hid (det ++ recs0.map recordToToken)) :=
    Option.some.inj (hl.symm.trans (tokensToDetect_eq_filter tl ta hid _))
  have hadrop : a ∈ cands.drop 1000 := List.take_subset _ _ (hs1 ▸ ha)
  have hacands : a ∈ cands := List.drop_subset _ _ hadrop
  have hamem := List.mem_filter.mp (hcands_eq ▸ hacands)
  have hpc : cands.Pairwise (fun x y => isEqualCaseInsensitive x y = false) := by
    rw [hcands_eq]
    exact List.Pairwise.sublist (List.filter_sublist _) hpair
  have hex : ∀ t ∈ recs0.map recordToToken,
      isEqualCaseInsensitive t.address a = false := by
    intro t ht
    obtain ⟨r, hr, rfl⟩ := List.mem_map.mp ht
    obtain ⟨k0, hk0, d, hld, hrad⟩ :=
      buildDiscoveries_addresses tl ks0 details0 recs0 hb r hr
    obtain ⟨p, hpmem, hq1, hq2⟩ := lookupToken_mem tl k0 d hld
    have hciaddr : isEqualCaseInsensitive d.address k0 = true := by
      have h0 := haddr p hpmem
      rw [hq1, hq2] at h0
      exact h0
    have hcipair : isEqualCaseInsensitive k0 a = false := by
      have hsplit := List.take_append_drop 1000 cands
      have hpcsplit : (cands.take 1000 ++ cands.drop 1000).Pairwise
          (fun x y => isEqualCaseInsensitive x y = false) := by
        rw [hsplit]
        exact hpc
      exact (List.pairwise_append.mp hpcsplit).2.2 k0 (hs0 ▸ hsub k0 hk0) a hadrop
    show isEqualCaseInsensitive (recordToToken r).address a = false
    have haddr_eq : (recordToToken r).address = d.address := hrad
    rw [haddr_eq]
    cases hda : isEqualCaseInsensitive d.address a with
    | false => rfl
    | true =>
      exfalso
      have h1 := (isEqualCaseInsensitive_iff _ _).mp hciaddr
      have h2 := (isEqualCaseInsensitive_iff _ _).mp hda
      have h3 : isEqualCaseInsensitive k0 a = true := by
        apply (isEqualCaseInsensitive_iff _ _).mpr
        rw [← h1]
        exact h2
      rw [h3] at hcipair
      exact Bool.noConfusion hcipair
  have hpf : passesFilter ta hid (det ++ recs0.map recordToToken) a = true :=
    passesFilter_det_append ta hid det (recs0.map recordToToken) a hamem.2 hex
  rw [hl_eq]
  exact List.mem_filter.mpr ⟨hamem.1, hpf⟩

/-- Witness for C5 at a concrete two-discovery batch result. -/
theorem claim_C5_witness :
    batchResultEffects catalogABC ["0xA", "0xC"]
      = some [Effect.trackTokenDetected EVENT_NAMES_TOKEN_DETECTED
          EVENT_CATEGORIES_WALLET ["AAA - 0xA", "CCC - 0xC"]
          TOKEN_STANDARDS_ERC20 ASSET_TYPES_TOKEN,
        Effect.addDetectedTokens
          [{ address := "0xA", symbol := "AAA", decimals := 18,
             image := "a.svg", aggregators := ["agg1"] },
           { address := "0xC", symbol := "CCC", decimals := 6,
             image := "c.svg", aggregators := [] }]] :=
  (claim_C5_reconciler catalogABC ["0xA", "0xC"] ["AAA - 0xA", "CCC - 0xC"]
    [{ address := "0xA", symbol := "AAA", decimals := 18,
       image := "a.svg", aggregators := ["agg1"] },
     { address := "0xC", symbol := "CCC", decimals := 6,
       image := "c.svg", aggregators := [] }] (by decide)).2.1 (by decide)

/-- Claim C4: when the oracle call of some batch fails (the promise
rejects), the run logs a recoverable warning and returns without an
exception; discoveries of batches completed before the failure have
already been persisted and reported (they appear in the trace before the
failing call); no oracle call is issued for any later batch; nothing is
written for the failed or unattempted batches; and every address of
those batches is still a candidate on the next tick (first conjunct:
first batch fails — trace is exactly read, call, warn, nothing written,
all addresses still candidates; second conjunct: first batch succeeds
with keys `ks0` and the second fails — the first batch's telemetry and
store write precede the failing call and the second slice's addresses
remain candidates after its discoveries are mirrored; third conjunct:
first batch's result falsy, second fails). -/
theorem claim_C4_partial_failure (env : Env) (st : DetectTokensState)
    (ta hid : List String) (det : List TokenDescriptor)
    (cands s0 s1 : List String)
    (hA : st.isActive = true) (hU : truthy st.useTokenDetection = true)
    (hN : env.isTokenDetectionEnabledForNetwork env.chainId = true)
    (hta : st.tokenAddresses = some ta) (hhid : st.hiddenTokens = some hid)
    (hdet : st.detectedTokens = some det)
    (hc : tokensToDetect env.tokenList (some ta) (some hid) (some det)
      = some cands)
    (hs0 : s0 = cands.take 1000)
    (hs1 : s1 = (cands.drop 1000).take (cands.length - 1 - 1000))
    (hpair : (env.tokenList.map Prod.fst).Pairwise
      (fun a b => isEqualCaseInsensitive a b = false))
    (haddr : ∀ p ∈ env.tokenList, isEqualCaseInsensitive p.2.address p.1 = true) :
    (env.getBalancesInSingleCall st.selectedAddress s0 = OracleOutcome.throw →
      (detectNewTokens env st).1
        = [Effect.readTokenList, Effect.oracleCall st.selectedAddress s0,
           Effect.warnFetchFailed]
      ∧ (detectNewTokens env st).2 = false
      ∧ storeWritesOf (detectNewTokens env st).1 = []
      ∧ ∀ a ∈ s0 ++ s1, a ∈ cands)
    ∧ (∀ (ks0 details0 : List String) (recs0 : List DetectedTokenRecord),
      env.getBalancesInSingleCall st.selectedAddress s0 = OracleOutcome.keys ks0 →
      buildDiscoveries env.tokenList ks0 = some (details0, recs0) →
      env.getBalancesInSingleCall st.selectedAddress s1 = OracleOutcome.throw →
      (∀ k ∈ ks0, k ∈ s0) →
      (detectNewTokens env st).1
        = Effect.readTokenList :: Effect.oracleCall st.selectedAddress s0 ::
          ((if recs0.length > 0 then
              [Effect.trackTokenDetected EVENT_NAMES_TOKEN_DETECTED
                 EVENT_CATEGORIES_WALLET details0 TOKEN_STANDARDS_ERC20
                 ASSET_TYPES_TOKEN,
               Effect.addDetectedTokens recs0]
            else [])
           ++ [Effect.oracleCall st.selectedAddress s1, Effect.warnFetchFailed])
      ∧ (detectNewTokens env st).2 = false
      ∧ storeWritesOf (detectNewTokens env st).1
          = (if recs0.length > 0 then [recs0] else [])
      ∧ ∀ a ∈ s1, ∀ l,
          tokensToDetect env.tokenList (some ta) (some hid)
            (some (det ++ recs0.map recordToToken)) = some l → a ∈ l)
    ∧ (env.getBalancesInSingleCall st.selectedAddress s0 = OracleOutcome.falsy →
      env.getBalancesInSingleCall st.selectedAddress s1 = OracleOutcome.throw →
      (detectNewTokens env st).1
        = [Effect.readTokenList, Effect.oracleCall st.selectedAddress s0,
           Effect.oracleCall st.selectedAddress s1, Effect.warnFetchFailed]
      ∧ (detectNewTokens env st).2 = false
      ∧ storeWritesOf (detectNewTokens env st).1 = []
      ∧ ∀ a ∈ s0 ++ s1, a ∈ cands) := by
  have hcE : tokensToDetect env.tokenList st.tokenAddresses st.hiddenTokens
      st.detectedTokens = some cands := by
    rw [hta, hhid, hdet]
    exact hc
  have hopen := detectNewTokens_open env st cands hA hU hN hcE
  have hslices : sliceOfTokensToDetect cands = [s0, s1] := by
    rw [hs0, hs1]
    rfl
  have hmem_cands : ∀ a ∈ s0 ++ s1, a ∈ cands := by
    intro a ha
    rcases List.mem_append.mp ha with ha | ha
    · exact List.take_subset _ _ (hs0 ▸ ha)
    · exact List.drop_subset _ _ (List.take_subset _ _ (hs1 ▸ ha))
  refine ⟨?_, ?_, ?_⟩
  · intro ho0
    have hrun : runBatches env st.selectedAddress [s0, s1]
        = ([Effect.oracleCall st.selectedAddress s0, Effect.warnFetchFailed],
           false) :=
      runBatches_cons_throw env st.selectedAddress s0 [s1] ho0
    refine ⟨?_, ?_, ?_, hmem_cands⟩
    · rw [hopen, hslices, hrun]
    · rw [hopen, hslices, hrun]
    · rw [hopen, hslices, hrun]
      rfl
  · intro ks0 details0 recs0 ho0 hb ho1 hsub
    have helig := eligibility_after_partial_write env.tokenList ta hid det
      cands s0 s1 ks0 details0 recs0 hc hs0 hs1 hb hsub hpair haddr
    by_cases hr : recs0.length > 0
    · have hbe : batchResultEffects env.tokenList ks0
          = some [Effect.trackTokenDetected EVENT_NAMES_TOKEN_DETECTED
              EVENT_CATEGORIES_WALLET details0 TOKEN_STANDARDS_ERC20
              ASSET_TYPES_TOKEN,
            Effect.addDetectedTokens recs0] := by
        unfold batchResultEffects
        rw [hb]
        simp only
        rw [if_pos hr]
      have hrun : runBatches env st.selectedAddress [s0, s1]
          = (Effect.oracleCall st.selectedAddress s0 ::
              ([Effect.trackTokenDetected EVENT_NAMES_TOKEN_DETECTED
                  EVENT_CATEGORIES_WALLET details0 TOKEN_STANDARDS_ERC20
                  ASSET_TYPES_TOKEN,
                Effect.addDetectedTokens recs0]
               ++ [Effect.oracleCall st.selectedAddress s1,
                   Effect.warnFetchFailed]),
             false) := by
        rw [runBatches_cons_keys env st.selectedAddress s0 [s1] ks0 _ ho0 hbe,
          runBatches_cons_throw env st.selectedAddress s1 [] ho1]
      refine ⟨?_, ?_, ?_, helig⟩
      · rw [hopen, hslices, hrun, if_pos hr]
      · rw [hopen, hslices, hrun]
      · rw [hopen, hslices, hrun, if_pos hr]
        rfl
    · have hbe : batchResultEffects env.tokenList ks0 = some [] := by
        unfold batchResultEffects
        rw [hb]
        simp only
        rw [if_neg hr]
      have hrun : runBatches env st.selectedAddress [s0, s1]
          = (Effect.oracleCall st.selectedAddress s0 ::
              ([] ++ [Effect.oracleCall st.selectedAddress s1,
                      Effect.warnFetchFailed]),
             false) := by
        rw [runBatches_cons_keys env st.selectedAddress s0 [s1] ks0 _ ho0 hbe,
          runBatches_cons_throw env st.selectedAddress s1 [] ho1]
      refine ⟨?_, ?_, ?_, helig⟩
      · rw [hopen, hslices, hrun, if_neg hr]
      · rw [hopen, hslices, hrun]
      · rw [hopen, hslices, hrun, if_neg hr]
        rfl
  · intro ho0 ho1
    have hrun : runBatches env st.selectedAddress [s0, s1]
        = (Effect.oracleCall st.selectedAddress s0 ::
            [Effect.oracleCall st.selectedAddress s1, Effect.warnFetchFailed],
           false) := by
      rw [runBatches_cons_falsy env st.selectedAddress s0 [s1] ho0,
        runBatches_cons_throw env st.selectedAddress s1 [] ho1]
    refine ⟨?_, ?_, ?_, hmem_cands⟩
    · rw [hopen, hslices, hrun]
    · rw [hopen, hslices, hrun]
    · rw [hopen, hslices, hrun]
      rfl

/-- Lower-case variants of the three-token catalog, with descriptor
addresses equal to their keys. -/
def descLowA : TokenDescriptor :=
  { address := "0xa", symbol := "AAA", decimals := 18, iconUrl := "a.svg",
    aggregators := [] }

def descLowB : TokenDescriptor :=
  { address := "0xb", symbol := "BBB", decimals := 8, iconUrl := "b.svg",
    aggregators := [] }

def descLowC : TokenDescriptor :=
  { address := "0xc", symbol := "CCC", decimals := 6, iconUrl := "c.svg",
    aggregators := [] }

def catalogLower : List (String × TokenDescriptor) :=
  [("0xa", descLowA), ("0xb", descLowB), ("0xc", descLowC)]

/-- The record the reconciler builds for `0xa`. -/
def recLowA : DetectedTokenRecord :=
  { address := "0xa", symbol := "AAA", decimals := 18, image := "a.svg",
    aggregators := [] }

/-- Environment whose oracle reports a non-zero balance for `0xa` on
non-empty batches and rejects on the empty batch (so the second,
empty slice's call fails). -/
def envC4 : Env :=
  { isTokenDetectionEnabledForNetwork := fun _ => true,
    chainId := "0x1",
    tokenList := catalogLower,
    getBalancesInSingleCall := fun _ ts =>
      if ts.isEmpty then OracleOutcome.throw
      else OracleOutcome.keys ["0xa"] }

/-- Witness for C4: the first batch's discovery is reported and persisted
before the second batch's failing call and the warning. -/
theorem claim_C4_witness :
    (detectNewTokens envC4 stOpen).1
      = [Effect.readTokenList,
         Effect.oracleCall (some "0xacc") ["0xa", "0xb", "0xc"],
         Effect.trackTokenDetected EVENT_NAMES_TOKEN_DETECTED
           EVENT_CATEGORIES_WALLET ["AAA - 0xa"] TOKEN_STANDARDS_ERC20
           ASSET_TYPES_TOKEN,
         Effect.addDetectedTokens [recLowA],
         Effect.oracleCall (some "0xacc") [],
         Effect.warnFetchFailed]
    ∧ storeWritesOf (detectNewTokens envC4 stOpen).1 = [[recLowA]] := by
  have h := claim_C4_partial_failure envC4 stOpen [] [] []
    ["0xa", "0xb", "0xc"] ["0xa", "0xb", "0xc"] []
    rfl rfl rfl rfl rfl rfl (by decide) (by decide) (by decide)
    (by decide) (by decide)
  obtain ⟨hB1, hB2, hB3, _⟩ := h.2.1 ["0xa"] ["AAA - 0xa"] [recLowA]
    (by decide) (by decide) (by decide) (by decide)
  constructor
  · simpa using hB1
  · simpa using hB3

end DetectTokens
